import Mathlib

/-!
Verification development for the `asyncapi-doc` schema inference engine
(`internal/asyncapi`): the `GenerateJSONSchema` family of functions that turn a
runtime value into a JSON-Schema-like `map[string]interface{}`, the validation
rule translator `applyValidationRules`, and `Parser.Validate`.

Modelling conventions:
* Go's `map[string]interface{}` schema values are modelled as association
  lists `List (String × JVal)` with Go-map update semantics (`setKey`
  overwrites an existing key in place, otherwise appends).  Go maps are
  unordered; the list order is the insertion order, which is deterministic
  here and never observed by the modelled code.
* Go `int64` is modelled as `Int` (with the explicit ±2^63 range check of
  `strconv.ParseInt`), and `float64` as `Rat`: every numeric literal the
  code parses or stores in the claims under study is a small decimal that
  `float64` represents exactly, so exact rational arithmetic is faithful.
* `reflect.Value` is modelled by the inductive `GoValue`; `reflect.Type` by
  `GoType`.  A struct value carries, per field, the `reflect.StructField`
  metadata the code reads (name, exportedness, the six tag strings).
* Go string primitives (`strings.ReplaceAll`, `strings.Split`,
  `strings.SplitN`, `strings.Contains`, `strings.TrimSpace`) are re-implemented
  over `List Char` so that all computations reduce inside the kernel.
-/

/-- JSON-ish value stored in a schema map (`interface{}` in the Go code):
strings, `int64`, `float64` (as `Rat`), booleans, arrays, and nested
`map[string]interface{}` objects. -/
inductive JVal where
  | s : String → JVal
  | i : Int → JVal
  | q : Rat → JVal
  | b : Bool → JVal
  | arr : List JVal → JVal
  | obj : List (String × JVal) → JVal

/-- A schema is a Go `map[string]interface{}`, modelled as an association
list in insertion order. -/
abbrev Schema := List (String × JVal)

/-- Go map read `m[k]`. -/
def getKey : Schema → String → Option JVal
  | [], _ => none
  | (k', v') :: rest, k => if k' = k then some v' else getKey rest k

/-- Go map write `m[k] = v`: overwrite in place, or append a new key. -/
def setKey : Schema → String → JVal → Schema
  | [], k, v => [(k, v)]
  | (k', v') :: rest, k, v => if k' = k then (k, v) :: rest else (k', v') :: setKey rest k v

/-- The Go type assertion `schemaType, ok := schema["type"].(string)`,
defaulting to `""` when the key is absent or not a string. -/
def getTypeString (sch : Schema) : String :=
  match getKey sch "type" with
  | some (.s t) => t
  | _ => ""

/-- Decide whether the char list `pat` is a prefix of the second list. -/
def charsStartWith : List Char → List Char → Bool
  | [], _ => true
  | _ :: _, [] => false
  | p :: ps, c :: cs => p = c && charsStartWith ps cs

/-- Decide whether `pat` occurs as a contiguous sublist of the second list. -/
def charsContain (pat : List Char) : List Char → Bool
  | [] => charsStartWith pat []
  | c :: cs => charsStartWith pat (c :: cs) || charsContain pat cs

/-- Go `strings.Contains s sub`. -/
def goContains (s sub : String) : Bool :=
  charsContain sub.toList s.toList

/-- Drop leading whitespace characters. -/
def dropLeadingSpace : List Char → List Char
  | [] => []
  | c :: cs => if c.isWhitespace then dropLeadingSpace cs else c :: cs

/-- Go `strings.TrimSpace`. -/
def goTrim (s : String) : String :=
  String.mk (((dropLeadingSpace s.toList.reverse).reverse) |> dropLeadingSpace)

/-- Worker for `goReplace`, structural in an explicit step bound (the bound
is the input length, which the scan never exceeds because every step consumes
at least one character). -/
def replCharsAux (pat rep : List Char) : Nat → List Char → List Char
  | 0, cs => cs
  | _ + 1, [] => []
  | n + 1, c :: cs =>
    if charsStartWith pat (c :: cs) && !pat.isEmpty then
      rep ++ replCharsAux pat rep n ((c :: cs).drop pat.length)
    else
      c :: replCharsAux pat rep n cs

/-- Go `strings.ReplaceAll s pat rep` (for nonempty `pat`): left-to-right,
non-overlapping replacement of every occurrence. -/
def goReplace (s pat rep : String) : String :=
  String.mk (replCharsAux pat.toList rep.toList s.toList.length s.toList)

/-- Worker for `goSplit`, structural in an explicit step bound. -/
def splitCharsAux (sep : List Char) : Nat → List Char → List (List Char)
  | 0, cs => [cs]
  | _ + 1, [] => [[]]
  | n + 1, c :: cs =>
    if charsStartWith sep (c :: cs) && !sep.isEmpty then
      [] :: splitCharsAux sep n ((c :: cs).drop sep.length)
    else
      match splitCharsAux sep n cs with
      | [] => [[c]]
      | p :: ps => (c :: p) :: ps

/-- Go `strings.Split s sep` (for nonempty `sep`). -/
def goSplit (s sep : String) : List String :=
  (splitCharsAux sep.toList s.toList.length s.toList).map fun cs => String.mk cs

/-- Go `strings.Join xs sep`. -/
def goIntercalate (sep : String) : List String → String
  | [] => ""
  | [x] => x
  | x :: xs => x ++ sep ++ goIntercalate sep xs

/-- Go `strings.SplitN s sep 2`: split at the first occurrence of `sep` only. -/
def goSplitN2 (s sep : String) : List String :=
  match goSplit s sep with
  | [] => [s]
  | [x] => [x]
  | x :: rest => [x, goIntercalate sep rest]

/-- Numeric value of a list of decimal digit characters. -/
def digitsVal (cs : List Char) : Nat :=
  cs.foldl (fun a c => a * 10 + (c.toNat - 48)) 0

/-- All characters are decimal digits and the list is nonempty. -/
def allDigits (cs : List Char) : Bool :=
  !cs.isEmpty && cs.all Char.isDigit

/-- Go `strconv.ParseInt value 10 64`: optional sign, decimal digits,
result within the `int64` range. -/
def goParseInt (str : String) : Option Int :=
  let (sign, ds) : Int × List Char :=
    match str.toList with
    | '+' :: rest => (1, rest)
    | '-' :: rest => (-1, rest)
    | cs => (1, cs)
  if allDigits ds then
    let n : Int := sign * (digitsVal ds : Int)
    if -(2 ^ 63) ≤ n ∧ n ≤ 2 ^ 63 - 1 then some n else none
  else none

/-- Go `strconv.ParseFloat value 64`, modelled on plain decimal literals
(optional sign, integer part, optional fractional part) as the exact
rational value.  `ParseFloat` accepts further syntax (exponents, hex
floats, Inf/NaN) that the modelled claims never exercise, and rounds to the
nearest `float64`; every literal under study is exactly representable. -/
def goParseFloat (str : String) : Option Rat :=
  let (neg, cs) : Bool × List Char :=
    match str.toList with
    | '+' :: rest => (false, rest)
    | '-' :: rest => (true, rest)
    | cs => (false, cs)
  match splitCharsAux ['.'] cs.length cs with
  | [ip] =>
    if allDigits ip then
      let n : Int := digitsVal ip
      some ((if neg then -n else n : Int) : Rat)
    else none
  | [ip, fp] =>
    if (allDigits ip || ip.isEmpty) && (allDigits fp || fp.isEmpty)
        && !(ip.isEmpty && fp.isEmpty) then
      let n : Int := digitsVal ip * 10 ^ fp.length + digitsVal fp
      some (Rat.divInt (if neg then -n else n) ((10 : Int) ^ fp.length))
    else none
  | _ => none

/-- Go `strconv.ParseBool`. -/
def goParseBool (str : String) : Option Bool :=
  if str ∈ ["1", "t", "T", "TRUE", "true", "True"] then some true
  else if str ∈ ["0", "f", "F", "FALSE", "false", "False"] then some false
  else none

/-- Translation of `escapeRegex`'s special-character list
`[]string{".", "+", "*", "?", "^", "$", "(", ")", "[", "]", "{", "}", "|", "\\"}`. -/
def regexSpecials : List String :=
  [".", "+", "*", "?", "^", "$", "(", ")", "[", "]", "\x7b", "\x7d", "|", "\\"]

/-- Translation of `escapeRegex`: sequentially `strings.ReplaceAll` each
special character `char` with `"\\" + char`, in list order. -/
def escapeRegex (s : String) : String :=
  regexSpecials.foldl (fun result char => goReplace result char ("\\" ++ char)) s

example : goParseInt "3" = some 3 := by decide
example : goParseInt "-42" = some (-42) := by decide
example : goParseFloat "150" = some 150 := by decide
example : goParseFloat "0" = some 0 := by decide
example : goParseFloat "1.5" = some (Rat.divInt 15 10) := by rfl
example : goContains "abc,omitempty" "omitempty" = true := by decide
example : goContains "abc" "omitempty" = false := by decide
example : goSplitN2 "min=3=4" "=" = ["min", "3=4"] := by decide
example : goSplit "gte=0,lte=150" "," = ["gte=0", "lte=150"] := by decide
example : escapeRegex "a.b" = "a\\\\.b" := by decide
example : escapeRegex "ab" = "ab" := by decide
example : goTrim " min " = "min" := by decide

/-- Metadata of one `reflect.StructField` as read by the generator: name,
exportedness, and the tag strings fetched via `field.Tag.Get`. -/
structure FieldMeta where
  name : String
  exported : Bool
  tagJson : String
  tagFormat : String
  tagExample : String
  tagDescription : String
  tagValidate : String
  tagRequired : String
deriving DecidableEq

/-- Shape of a Go type (`reflect.Type`) as far as the generator inspects it.
All integer widths collapse to `intT` and both float widths to `floatT`,
matching the case lists of the Go switches; `timeT` is `time.Time`
(a struct kind, special-cased by identity); `ifaceT` is an interface type;
`otherT` covers the kinds the code leaves to its `default` branches
(chan, func, complex, ...). -/
inductive GoType where
  | strT
  | boolT
  | intT
  | floatT
  | ptr (pointee : GoType)
  | slice (elem : GoType)
  | mapT (key value : GoType)
  | structT (name : String) (fields : List (FieldMeta × GoType))
  | timeT
  | ifaceT
  | otherT

/-- A `reflect.Value` as far as the generator inspects it.  A struct value
carries per-field metadata and field values; a slice carries its element
type (needed when it is empty) and its elements; interface-typed positions
are explicit (`ifaceNil` / `ifaceV`) because `reflect` reports them with
`Kind() == Interface`. -/
inductive GoValue where
  | strV (s : String)
  | boolV (b : Bool)
  | intV (n : Int)
  | floatV (x : Rat)
  | nilPtr (pointee : GoType)
  | ptrV (v : GoValue)
  | sliceV (elem : GoType) (elems : List GoValue)
  | mapV (key value : GoType)
  | structV (name : String) (fields : List (FieldMeta × GoValue))
  | timeV
  | ifaceNil
  | ifaceV (v : GoValue)
  | otherV

mutual

/-- The Go zero value `reflect.New(t).Elem()` of a type. -/
def zeroValue : GoType → GoValue
  | .strT => .strV ""
  | .boolT => .boolV false
  | .intT => .intV 0
  | .floatT => .floatV 0
  | .ptr t => .nilPtr t
  | .slice t => .sliceV t []
  | .mapT k v => .mapV k v
  | .structT n fts => .structV n (zeroFields fts)
  | .timeT => .timeV
  | .ifaceT => .ifaceNil
  | .otherT => .otherV

/-- Zero values of a struct's fields. -/
def zeroFields : List (FieldMeta × GoType) → List (FieldMeta × GoValue)
  | [] => []
  | (m, t) :: rest => (m, zeroValue t) :: zeroFields rest

end

/-- Translation of `convertToType`: convert a string value to the
appropriate type based on the schema type. -/
def convertToType (value schemaType : String) : JVal :=
  match schemaType with
  | "integer" =>
    match goParseInt value with
    | some intVal => .i intVal
    | none => .s value
  | "number" =>
    match goParseFloat value with
    | some floatVal => .q floatVal
    | none => .s value
  | "boolean" =>
    match goParseBool value with
    | some boolVal => .b boolVal
    | none => .s value
  | _ => .s value

/-- Translation of `parseExampleValue`: convert the example string to the
appropriate type, guided by `schema["type"]` (the Go parameter `example` is
renamed `exampleStr`; `example` is a Lean keyword). -/
def parseExampleValue (exampleStr : String) (schema : Schema) : JVal :=
  match getKey schema "type" with
  | some (.s schemaType) =>
    match schemaType with
    | "integer" =>
      match goParseInt exampleStr with
      | some val => .i val
      | none => .s exampleStr
    | "number" =>
      match goParseFloat exampleStr with
      | some val => .q val
      | none => .s exampleStr
    | "boolean" =>
      match goParseBool exampleStr with
      | some val => .b val
      | none => .s exampleStr
    | _ => .s exampleStr
  | _ => .s exampleStr

/-- One iteration of the `applyValidationRules` loop: trim the rule token,
split it into `key=value` at the first `=`, then dispatch on the key.
`schemaType` is the string read from `schema["type"]` once, before the loop. -/
def applyRule (schemaType : String) (schema : Schema) (rule0 : String) : Schema :=
  let rule := goTrim rule0
  if rule = "" then schema
  else
    let parts := goSplitN2 rule "="
    let key := goTrim (parts.headD "")
    let value :=
      match parts with
      | [_, v] => goTrim v
      | _ => ""
    match key with
    | "min" =>
      if schemaType = "string" || schemaType = "array" then
        match goParseInt value with
        | some val =>
          if schemaType = "string" then setKey schema "minLength" (.i val)
          else setKey schema "minItems" (.i val)
        | none => schema
      else
        match goParseFloat value with
        | some val => setKey schema "minimum" (.q val)
        | none => schema
    | "max" =>
      if schemaType = "string" || schemaType = "array" then
        match goParseInt value with
        | some val =>
          if schemaType = "string" then setKey schema "maxLength" (.i val)
          else setKey schema "maxItems" (.i val)
        | none => schema
      else
        match goParseFloat value with
        | some val => setKey schema "maximum" (.q val)
        | none => schema
    | "gt" =>
      match goParseFloat value with
      | some val => setKey schema "exclusiveMinimum" (.q val)
      | none => schema
    | "gte" =>
      match goParseFloat value with
      | some val => setKey schema "minimum" (.q val)
      | none => schema
    | "lt" =>
      match goParseFloat value with
      | some val => setKey schema "exclusiveMaximum" (.q val)
      | none => schema
    | "lte" =>
      match goParseFloat value with
      | some val => setKey schema "maximum" (.q val)
      | none => schema
    | "minLength" =>
      match goParseInt value with
      | some val => setKey schema "minLength" (.i val)
      | none => schema
    | "maxLength" =>
      match goParseInt value with
      | some val => setKey schema "maxLength" (.i val)
      | none => schema
    | "len" =>
      match goParseInt value with
      | some val =>
        if schemaType = "string" then
          setKey (setKey schema "minLength" (.i val)) "maxLength" (.i val)
        else if schemaType = "array" then
          setKey (setKey schema "minItems" (.i val)) "maxItems" (.i val)
        else schema
      | none => schema
    | "oneof" | "oneOf" =>
      if value ≠ "" then
        let enumValues := goSplit value "|"
        let typedEnums := enumValues.map fun v => convertToType (goTrim v) schemaType
        if typedEnums.length > 0 then setKey schema "enum" (.arr typedEnums) else schema
      else schema
    | "eq" =>
      if value ≠ "" then setKey schema "const" (convertToType value schemaType) else schema
    | "alpha" => setKey schema "pattern" (.s "^[a-zA-Z]+$")
    | "alphanum" => setKey schema "pattern" (.s "^[a-zA-Z0-9]+$")
    | "alphaspace" => setKey schema "pattern" (.s "^[a-zA-Z ]+$")
    | "alphanumunicode" => setKey schema "pattern" (.s "^[\\p\x7bL\x7d\\p\x7bN\x7d]+$")
    | "lowercase" => setKey schema "pattern" (.s "^[a-z]+$")
    | "uppercase" => setKey schema "pattern" (.s "^[A-Z]+$")
    | "numeric" => setKey schema "pattern" (.s "^[0-9]+$")
    | "hexadecimal" => setKey schema "pattern" (.s "^[0-9a-fA-F]+$")
    | "hexcolor" =>
      setKey schema "pattern" (.s "^#([0-9a-fA-F]\x7b3\x7d|[0-9a-fA-F]\x7b6\x7d)$")
    | "ascii" => setKey schema "pattern" (.s "^[\x00-\x7F]+$")
    | "printascii" => setKey schema "pattern" (.s "^[\x20-\x7E]+$")
    | "startswith" =>
      if value ≠ "" then setKey schema "pattern" (.s ("^" ++ escapeRegex value)) else schema
    | "endswith" =>
      if value ≠ "" then setKey schema "pattern" (.s (escapeRegex value ++ "$")) else schema
    | "contains" =>
      if value ≠ "" then setKey schema "pattern" (.s (escapeRegex value)) else schema
    | "pattern" => setKey schema "pattern" (.s value)
    | "email" => setKey schema "format" (.s "email")
    | "url" | "uri" | "http_url" => setKey schema "format" (.s "uri")
    | "uuid" | "uuid4" | "uuid_rfc4122" => setKey schema "format" (.s "uuid")
    | "uuid3" | "uuid3_rfc4122" => setKey schema "format" (.s "uuid")
    | "uuid5" | "uuid5_rfc4122" => setKey schema "format" (.s "uuid")
    | "datetime" => setKey schema "format" (.s "date-time")
    | "date" => setKey schema "format" (.s "date")
    | "time" => setKey schema "format" (.s "time")
    | "duration" => setKey schema "format" (.s "duration")
    | "hostname" | "fqdn" | "hostname_rfc1123" => setKey schema "format" (.s "hostname")
    | "ipv4" | "ip4_addr" => setKey schema "format" (.s "ipv4")
    | "ipv6" | "ip6_addr" => setKey schema "format" (.s "ipv6")
    | "ip" | "ip_addr" => setKey schema "format" (.s "ipv4")
    | "base64" | "base64url" => setKey schema "format" (.s "base64")
    | "datauri" => setKey schema "format" (.s "data-uri")
    | "json" => setKey schema "contentMediaType" (.s "application/json")
    | "jwt" =>
      setKey schema "pattern" (.s "^[A-Za-z0-9-_]+\\.[A-Za-z0-9-_]+\\.[A-Za-z0-9-_]*$")
    | "latitude" => setKey (setKey schema "minimum" (.q (-90))) "maximum" (.q 90)
    | "longitude" => setKey (setKey schema "minimum" (.q (-180))) "maximum" (.q 180)
    | "mac" =>
      setKey schema "pattern" (.s "^([0-9A-Fa-f]\x7b2\x7d[:-])\x7b5\x7d([0-9A-Fa-f]\x7b2\x7d)$")
    | "cidr" =>
      setKey schema "pattern" (.s "^([0-9]\x7b1,3\x7d\\.)\x7b3\x7d[0-9]\x7b1,3\x7d/[0-9]\x7b1,2\x7d$")
    | "port" => setKey (setKey schema "minimum" (.q 1)) "maximum" (.q 65535)
    | "isbn" =>
      setKey schema "pattern" (.s ("^(?:ISBN(?:-1[03])?:? )?(?=[0-9X]\x7b10\x7d$|(?=(?:[0-9]+[- ])\x7b3\x7d)[- 0-9X]\x7b13\x7d$|97[89][0-9]\x7b10\x7d$|(?=(?:[0-9]+[- ])\x7b4\x7d)[- 0-9]\x7b17\x7d$)(?:97[89][- ]?)?[0-9]\x7b1,5\x7d[- ]?[0-9]+[- ]?[0-9]+[- ]?[0-9X]$"))
    | "isbn10" => setKey schema "pattern" (.s "^(?:[0-9]\x7b9\x7dX|[0-9]\x7b10\x7d)$")
    | "isbn13" => setKey schema "pattern" (.s "^(?:97[89][0-9]\x7b10\x7d)$")
    | "issn" => setKey schema "pattern" (.s "^[0-9]\x7b4\x7d-[0-9]\x7b3\x7d[0-9X]$")
    | "credit_card" => setKey schema "pattern" (.s "^[0-9]\x7b13,19\x7d$")
    | "btc_addr" => setKey schema "pattern" (.s "^[13][a-km-zA-HJ-NP-Z1-9]\x7b25,34\x7d$")
    | "eth_addr" => setKey schema "pattern" (.s "^0x[0-9a-fA-F]\x7b40\x7d$")
    | "ssn" => setKey schema "pattern" (.s "^[0-9]\x7b3\x7d-[0-9]\x7b2\x7d-[0-9]\x7b4\x7d$")
    | "semver" =>
      setKey schema "pattern" (.s "^(0|[1-9]\\d*)\\.(0|[1-9]\\d*)\\.(0|[1-9]\\d*)(?:-((?:0|[1-9]\\d*|\\d*[a-zA-Z-][0-9a-zA-Z-]*)(?:\\.(?:0|[1-9]\\d*|\\d*[a-zA-Z-][0-9a-zA-Z-]*))*))?(?:\\+([0-9a-zA-Z-]+(?:\\.[0-9a-zA-Z-]+)*))?$")
    | "e164" => setKey schema "pattern" (.s "^\\+[1-9]\\d\x7b1,14\x7d$")
    | "unique" => setKey schema "uniqueItems" (.b true)
    | "dive" => schema
    | _ => schema

/-- Translation of `applyValidationRules`: split the `validate` tag on commas,
read `schema["type"]` once, then apply each rule in order (the Go loop
mutates `schema` in place; here it is a left fold). -/
def applyValidationRules (schema : Schema) (validate : String) : Schema :=
  let rules := goSplit validate ","
  let schemaType := getTypeString schema
  rules.foldl (applyRule schemaType) schema

/-- Translation of `applyFieldTags`: apply the `format`, `example`,
`description` and `validate` tags of a struct field to its field schema. -/
def applyFieldTags (schema : Schema) (field : FieldMeta) : Schema :=
  let schema :=
    if field.tagFormat ≠ "" then setKey schema "format" (.s field.tagFormat) else schema
  let schema :=
    if field.tagExample ≠ "" then
      setKey schema "example" (parseExampleValue field.tagExample schema)
    else schema
  let schema :=
    if field.tagDescription ≠ "" then
      setKey schema "description" (.s field.tagDescription)
    else schema
  if field.tagValidate ≠ "" then applyValidationRules schema field.tagValidate else schema

/-- The schema `{type: string, format: date-time}` that `generateObjectSchema`
and `generateSchemaForType` return for `time.Time`. -/
def dateTimeSchema : Schema :=
  [("type", .s "string"), ("format", .s "date-time")]

/-- The schema `{type: object, additionalProperties: {type: object}}`
returned by `generateMapSchema`. -/
def mapValueSchema : Schema :=
  [("type", .s "object"), ("additionalProperties", .obj [("type", .s "object")])]

/-- Translation of `generateMapSchema` (ignores its argument). -/
def generateMapSchema (_ : GoValue) : Schema :=
  mapValueSchema

/-- Whether a type has `reflect.Kind() == reflect.Struct`
(`time.Time` is a struct). -/
def isStructKind : GoType → Bool
  | .structT _ _ => true
  | .timeT => true
  | _ => false

/-- The JSON-tag parsing step of `generateObjectSchema`'s loop: the name is
everything before the first comma, and the field starts out required unless
the options after that comma contain `omitempty`. -/
def parseJsonTag (tag : String) : String × Bool :=
  match goSplit tag "," with
  | [name] => (name, true)
  | name :: rest => (name, !goContains (goIntercalate "," rest) "omitempty")
  | [] => (tag, true)

/-- The field loop of `generateObjectSchema`, abstracted over the already
computed raw field schemas (`generateSchemaForValue fieldVal` for the value
path, `schemaForZero` for the zero-value path; computing the schema of a
field that the loop then skips is a side-effect-free no-op, so hoisting the
computation is sound).  Mirrors, in order: skip unexported fields, skip
fields with an empty or `"-"` json tag, parse the json tag, apply the field
tags to the field schema, insert into `properties`, let `required:"true"`
force requiredness, and append to `required`. -/
def objectPropsAcc (acc : List (String × JVal) × List String) :
    List (FieldMeta × Schema) → List (String × JVal) × List String
  | [] => acc
  | (field, rawSchema) :: rest =>
    if !field.exported then objectPropsAcc acc rest
    else if field.tagJson = "" || field.tagJson = "-" then objectPropsAcc acc rest
    else
      let (jsonName, tagRequired) := parseJsonTag field.tagJson
      let fieldSchema := applyFieldTags rawSchema field
      let isRequired := if field.tagRequired = "true" then true else tagRequired
      objectPropsAcc
        (setKey acc.1 jsonName (.obj fieldSchema),
         if isRequired then acc.2 ++ [jsonName] else acc.2) rest

/-- The tail of `generateObjectSchema`: assemble
`{type: object, properties: ...}` and add `required` only when nonempty. -/
def objectSchemaOfFields (entries : List (FieldMeta × Schema)) : Schema :=
  let (properties, required) := objectPropsAcc ([], []) entries
  let schema : Schema := [("type", .s "object"), ("properties", .obj properties)]
  if required.length > 0 then setKey schema "required" (.arr (required.map JVal.s)) else schema

mutual

/-- Schema that `generateSchemaForValue` produces on the zero value
`reflect.New(t).Elem()`; this models the Go code's runtime zero-value
probing as a type-level function (certified against the value path by
`schemaForZero_eq_zeroValue` below). -/
def schemaForZero : GoType → Schema
  | .strT => [("type", .s "string")]
  | .boolT => [("type", .s "boolean")]
  | .intT => [("type", .s "integer")]
  | .floatT => [("type", .s "number")]
  | .ptr _ => [("type", .s "null")]
  | .slice t =>
    [("type", .s "array"),
     ("items", .obj (if isStructKind t then schemaForZero t else generateSchemaForType t))]
  | .mapT _ _ => mapValueSchema
  | .structT _ fts => objectSchemaOfFields (zeroFieldSchemas fts)
  | .timeT => dateTimeSchema
  | .ifaceT => [("type", .s "object")]
  | .otherT => [("type", .s "object")]

/-- Raw schemas of a struct's fields at their zero values. -/
def zeroFieldSchemas : List (FieldMeta × GoType) → List (FieldMeta × Schema)
  | [] => []
  | (m, t) :: rest => (m, schemaForZero t) :: zeroFieldSchemas rest

/-- Translation of `generateSchemaForType`: strip one pointer, then switch
on the kind.  The single pointer dereference is spelled as a depth-two
pattern, so each kind case appears once for `*T` and once for `T`; the
struct case builds a zero value and returns `generateObjectSchema` of it
(here: the object-schema assembly over the fields' zero-value schemas);
slices, maps, interfaces and the remaining kinds fall into the Go switch's
`default` branch. -/
def generateSchemaForType : GoType → Schema
  | .ptr .strT | .strT => [("type", .s "string")]
  | .ptr .boolT | .boolT => [("type", .s "boolean")]
  | .ptr .intT | .intT => [("type", .s "integer")]
  | .ptr .floatT | .floatT => [("type", .s "number")]
  | .ptr .timeT | .timeT => dateTimeSchema
  | .ptr (.structT _ fts) | .structT _ fts => objectSchemaOfFields (zeroFieldSchemas fts)
  | _ => [("type", .s "object")]

end

mutual

/-- Translation of `generateSchemaForValue`.  A nil pointer yields
`{type: null}`; a non-nil pointer is dereferenced exactly once — spelled
here as a depth-two pattern, so each kind case of the Go switch appears
once under `.ptrV` and once bare.  Struct kind goes to `generateObjectSchema`
(inlined: the `time.Time` identity check is the `.timeV` arm, the field
loop is `objectSchemaOfFields` over `fieldSchemas`), slices/arrays to
`generateArraySchema`, maps to `generateMapSchema`; the final catch-all is
the Go switch's `default` branch (a pointer still left after the single
dereference, interface values, and other kinds). -/
def generateSchemaForValue : GoValue → Schema
  | .nilPtr _ => [("type", .s "null")]
  | .ptrV (.structV _ fvs) | .structV _ fvs => objectSchemaOfFields (fieldSchemas fvs)
  | .ptrV .timeV | .timeV => dateTimeSchema
  | .ptrV (.sliceV t es) | .sliceV t es => generateArraySchema t es
  | .ptrV (.mapV k v) | .mapV k v => generateMapSchema (.mapV k v)
  | .ptrV (.strV _) | .strV _ => [("type", .s "string")]
  | .ptrV (.boolV _) | .boolV _ => [("type", .s "boolean")]
  | .ptrV (.intV _) | .intV _ => [("type", .s "integer")]
  | .ptrV (.floatV _) | .floatV _ => [("type", .s "number")]
  | _ => [("type", .s "object")]

/-- Raw schemas of a struct value's fields
(`generateSchemaForValue(val.Field(i))` of `generateObjectSchema`'s loop). -/
def fieldSchemas : List (FieldMeta × GoValue) → List (FieldMeta × Schema)
  | [] => []
  | (m, fv) :: rest => (m, generateSchemaForValue fv) :: fieldSchemas rest

/-- Translation of `generateArraySchema`: a nonempty collection infers
`items` from its first element; an empty one infers from the element type —
via a zero value for struct kinds (modelled by `schemaForZero`), via
`generateSchemaForType` otherwise. -/
def generateArraySchema (elemT : GoType) (elems : List GoValue) : Schema :=
  match elems with
  | e :: _ => [("type", .s "array"), ("items", .obj (generateSchemaForValue e))]
  | [] =>
    [("type", .s "array"),
     ("items", .obj (if isStructKind elemT then schemaForZero elemT
                     else generateSchemaForType elemT))]

end

/-- The interface step of the unwrapping code: `if innerType.Kind() ==
reflect.Interface && !innerVal.IsNil() { innerVal = innerVal.Elem() }`. -/
def unwrapInterfaceValue : GoValue → GoValue
  | .ifaceV v => v
  | v => v

/-- The `MsgResponse` loop of `GenerateJSONSchema`: find the first field
named `Response`. -/
def findResponseField : List (FieldMeta × GoValue) → Option GoValue
  | [] => none
  | (m, v) :: rest => if m.name = "Response" then some v else findResponseField rest

/-- The envelope-unwrapping half of `GenerateJSONSchema`, applied after the
top-level pointer handling. -/
def generateJSONSchemaUnwrap (v : GoValue) : Schema :=
  match v with
  | .structV name ((m0, f0) :: rest) =>
    if m0.name = "Data" then generateSchemaForValue (unwrapInterfaceValue f0)
    else
      match findResponseField ((m0, f0) :: rest) with
      | some rv => generateSchemaForValue (unwrapInterfaceValue rv)
      | none => generateSchemaForValue (.structV name ((m0, f0) :: rest))
  | v => generateSchemaForValue v

/-- Translation of `GenerateJSONSchema`: `nil` and top-level nil pointers
return the bare `{type: object}`; a non-nil pointer is dereferenced; a
struct whose first field is named `Data`, or otherwise containing a field
named `Response`, is unwrapped to that field's (interface-unboxed) value;
everything else goes to `generateSchemaForValue`.  The input is
`Option GoValue`, `none` being the nil `interface{}`. -/
def GenerateJSONSchema : Option GoValue → Schema
  | none => [("type", .s "object")]
  | some v0 =>
    match v0 with
    | .nilPtr _ => [("type", .s "object")]
    | .ptrV u => generateJSONSchemaUnwrap u
    | v => generateJSONSchemaUnwrap v

/-- Box a payload into an `interface{}` field position: a `nil` payload is
the nil interface, anything else an interface wrapping the concrete value. -/
def boxInterface : Option GoValue → GoValue
  | none => .ifaceNil
  | some v => .ifaceV v

/-- Field metadata of `Msg.Data` (`Data interface{} \x60json:"data"\x60`). -/
def msgDataField : FieldMeta :=
  ⟨"Data", true, "data", "", "", "", "", ""⟩

/-- The wrapper value `Msg{Data: p}` from `operation.go`. -/
def mkMsg (p : Option GoValue) : GoValue :=
  .structV "Msg" [(msgDataField, boxInterface p)]

/-- Field metadata of `MsgResponse.ID` (`ID string \x60json:"id"\x60`). -/
def msgResponseIdField : FieldMeta :=
  ⟨"ID", true, "id", "", "", "", "", ""⟩

/-- Field metadata of `MsgResponse.Response`
(`Response interface{} \x60json:"response"\x60`). -/
def msgResponseField : FieldMeta :=
  ⟨"Response", true, "response", "", "", "", "", ""⟩

/-- The wrapper value `MsgResponse{ID: id, Response: p}` from `operation.go`. -/
def mkMsgResponse (id : String) (p : Option GoValue) : GoValue :=
  .structV "MsgResponse" [(msgResponseIdField, .strV id), (msgResponseField, boxInterface p)]

/-- The `Info` metadata of the collected AsyncAPI document, as read by
`Parser.Validate`. -/
structure APIInfo where
  title : String
  version : String

/-- The collected AsyncAPI document, restricted to the state `Validate`
inspects (`Servers` is keyed by name; only its size is read). -/
structure AsyncAPIDoc where
  info : APIInfo
  servers : List String

/-- The parser, restricted to the state `Validate` inspects. -/
structure Parser where
  asyncAPI : AsyncAPIDoc

/-- Translation of `Parser.Validate` from `parser.go`. -/
def Parser.Validate (p : Parser) : Except String Unit :=
  if p.asyncAPI.info.title = "" then
    .error "missing required @title annotation in API comments"
  else if p.asyncAPI.info.version = "" then
    .error "missing required @version annotation in API comments"
  else if p.asyncAPI.servers.length = 0 then
    .error "missing required server configuration (@url or @host and @protocol)"
  else
    .ok ()

theorem getKey_setKey (s : Schema) (k k' : String) (v : JVal) :
    getKey (setKey s k v) k' = if k' = k then some v else getKey s k' := by
  induction s with
  | nil =>
    simp only [setKey, getKey]
    by_cases h : k = k'
    · rw [if_pos h, if_pos h.symm]
    · rw [if_neg h, if_neg (fun h' => h h'.symm)]
  | cons hd tl ih =>
    obtain ⟨k'', v''⟩ := hd
    by_cases h1 : k'' = k
    · subst h1
      simp only [setKey, if_pos rfl, getKey]
      by_cases h2 : k'' = k'
      · rw [if_pos h2, if_pos h2.symm]
      · rw [if_neg h2, if_neg (fun h' => h2 h'.symm), if_neg h2]
    · simp only [setKey, if_neg h1, getKey, ih]
      by_cases h2 : k'' = k'
      · subst h2
        rw [if_pos rfl, if_neg h1, if_pos rfl]
      · rw [if_neg h2, if_neg h2]

/-- Structural keys of a schema: the ones whose shape the wellformedness
invariant tracks.  The constraint translator and `applyFieldTags` never
write them. -/
def structuralKey (k : String) : Bool :=
  k = "type" || k = "properties" || k = "items" || k = "additionalProperties"

/-- Node-level part of the (amended) structural invariant of produced
schemas: a `type` entry is always present; an `items` entry is present
exactly on array-kind schemas; a `properties` entry appears only on
object-kind schemas (which, combined, gives: array-kind has `items` and no
`properties`). -/
def nodeOk (s : Schema) : Bool :=
  (getKey s "type").isSome
  && ((getKey s "items").isSome == (getTypeString s == "array"))
  && (!(getKey s "properties").isSome || (getTypeString s == "object"))

mutual

/-- All entries of a schema node satisfy the invariant. -/
def schemaEntriesOk : List (String × JVal) → Bool
  | [] => true
  | (k, v) :: rest => entryOk k v && schemaEntriesOk rest

/-- One schema entry: `properties` holds an object of subschemas, `items`
and `additionalProperties` hold a subschema, anything else is
unconstrained. -/
def entryOk (k : String) (v : JVal) : Bool :=
  if k = "properties" then
    match v with
    | .obj kvs => propsOk kvs
    | _ => false
  else if k = "items" ∨ k = "additionalProperties" then
    match v with
    | .obj s => nodeOk s && schemaEntriesOk s
    | _ => false
  else true

/-- Every value of a `properties` object is a wellformed subschema. -/
def propsOk : List (String × JVal) → Bool
  | [] => true
  | (_, v) :: rest =>
    (match v with
     | .obj s => nodeOk s && schemaEntriesOk s
     | _ => false) && propsOk rest

end

/-- The recursive structural invariant on produced schemas. -/
def schemaOk (s : Schema) : Bool :=
  nodeOk s && schemaEntriesOk s

theorem entryOk_of_not_structural {k : String} (v : JVal) (h : structuralKey k = false) :
    entryOk k v = true := by
  unfold structuralKey at h
  simp only [Bool.or_eq_false_iff, decide_eq_false_iff_not] at h
  obtain ⟨⟨⟨ht, hp⟩, hi⟩, ha⟩ := h
  have hia : ¬(k = "items" ∨ k = "additionalProperties") := by
    rintro (h1 | h2)
    exacts [hi h1, ha h2]
  rw [entryOk.eq_def, if_neg hp, if_neg hia]

theorem getTypeString_setKey {s : Schema} {k : String} {v : JVal} (h : k ≠ "type") :
    getTypeString (setKey s k v) = getTypeString s := by
  rw [getTypeString, getTypeString, getKey_setKey, if_neg (Ne.symm h)]

theorem nodeOk_setKey {s : Schema} {k : String} {v : JVal} (h : structuralKey k = false) :
    nodeOk (setKey s k v) = nodeOk s := by
  unfold structuralKey at h
  simp only [Bool.or_eq_false_iff, decide_eq_false_iff_not] at h
  obtain ⟨⟨⟨ht, hp⟩, hi⟩, ha⟩ := h
  simp only [nodeOk, getKey_setKey, getTypeString_setKey ht,
    if_neg (show ¬"type" = k from fun h' => ht h'.symm),
    if_neg (show ¬"items" = k from fun h' => hi h'.symm),
    if_neg (show ¬"properties" = k from fun h' => hp h'.symm)]

theorem schemaEntriesOk_setKey {s : Schema} {k : String} {v : JVal}
    (hk : entryOk k v = true) (hs : schemaEntriesOk s = true) :
    schemaEntriesOk (setKey s k v) = true := by
  induction s with
  | nil => simp [setKey, schemaEntriesOk, hk]
  | cons hd tl ih =>
    obtain ⟨k'', v''⟩ := hd
    rw [schemaEntriesOk, Bool.and_eq_true] at hs
    by_cases h1 : k'' = k
    · simp [setKey, h1, schemaEntriesOk, hk, hs.2]
    · simp [setKey, h1, schemaEntriesOk, hs.1, ih hs.2]

theorem schemaOk_setKey {s : Schema} {k : String} {v : JVal}
    (h : structuralKey k = false) (hs : schemaOk s = true) :
    schemaOk (setKey s k v) = true := by
  rw [schemaOk, Bool.and_eq_true] at hs
  rw [schemaOk, nodeOk_setKey h, Bool.and_eq_true]
  exact ⟨hs.1, schemaEntriesOk_setKey (entryOk_of_not_structural v h) hs.2⟩

theorem and2true {a b : Bool} (ha : a = true) (hb : b = true) : (a && b) = true := by
  rw [ha, hb]
  rfl

theorem true2and {a b : Bool} (h : (a && b) = true) : a = true ∧ b = true := by
  cases a <;> cases b <;> simp_all

set_option maxHeartbeats 4000000 in
theorem schemaOk_applyRule (st : String) (sch : Schema) (rule : String)
    (h : schemaOk sch = true) : schemaOk (applyRule st sch rule) = true := by
  unfold applyRule
  dsimp only
  repeat' split
  all_goals repeat'
    first
    | exact h
    | rfl
    | apply schemaOk_setKey

theorem schemaOk_foldlRules (rules : List String) (st : String) :
    ∀ sch : Schema, schemaOk sch = true → schemaOk (rules.foldl (applyRule st) sch) = true := by
  induction rules with
  | nil => exact fun _ h => h
  | cons r rest ih => exact fun sch h => ih _ (schemaOk_applyRule st sch r h)

theorem schemaOk_applyValidationRules {sch : Schema} (validate : String)
    (h : schemaOk sch = true) : schemaOk (applyValidationRules sch validate) = true := by
  unfold applyValidationRules
  exact schemaOk_foldlRules _ _ _ h

theorem schemaOk_applyFieldTags {sch : Schema} (field : FieldMeta)
    (h : schemaOk sch = true) : schemaOk (applyFieldTags sch field) = true := by
  unfold applyFieldTags
  dsimp only
  repeat' split
  all_goals repeat'
    first
    | exact h
    | rfl
    | apply schemaOk_applyValidationRules
    | apply schemaOk_setKey

/-- All raw field schemas handed to the object-schema assembly are
wellformed. -/
def fieldEntriesOk : List (FieldMeta × Schema) → Bool
  | [] => true
  | (_, s) :: rest => schemaOk s && fieldEntriesOk rest

theorem propsOk_cons_obj {name : String} {s : Schema} {rest : List (String × JVal)}
    (hs : schemaOk s = true) (hr : propsOk rest = true) :
    propsOk ((name, JVal.obj s) :: rest) = true := by
  rw [schemaOk, Bool.and_eq_true] at hs
  simp only [propsOk, hs.1, hs.2, hr, Bool.and_self]

theorem propsOk_setKey {ps : List (String × JVal)} {name : String} {s : Schema}
    (hps : propsOk ps = true) (hs : schemaOk s = true) :
    propsOk (setKey ps name (.obj s)) = true := by
  induction ps with
  | nil => exact propsOk_cons_obj hs rfl
  | cons hd tl ih =>
    obtain ⟨k'', v''⟩ := hd
    by_cases h1 : k'' = name
    · rw [setKey, if_pos h1]
      refine propsOk_cons_obj hs ?_
      cases v'' <;> exact (true2and hps).2
    · rw [setKey, if_neg h1]
      cases v'' <;> exact and2true (true2and hps).1 (ih (true2and hps).2)

theorem objectPropsAcc_ok (entries : List (FieldMeta × Schema)) :
    ∀ acc : List (String × JVal) × List String,
      propsOk acc.1 = true → fieldEntriesOk entries = true →
      propsOk (objectPropsAcc acc entries).1 = true := by
  induction entries with
  | nil => intro acc h _; exact h
  | cons e rest ih =>
    intro acc hacc hok
    obtain ⟨field, raw⟩ := e
    rw [fieldEntriesOk, Bool.and_eq_true] at hok
    rw [objectPropsAcc]
    split
    · exact ih acc hacc hok.2
    · split
      · exact ih acc hacc hok.2
      · exact ih _ (propsOk_setKey hacc (schemaOk_applyFieldTags field hok.1)) hok.2

theorem schemaOk_objectView {props : List (String × JVal)} (hp : propsOk props = true) :
    schemaOk [("type", JVal.s "object"), ("properties", JVal.obj props)] = true := by
  rw [schemaOk, Bool.and_eq_true]
  refine ⟨rfl, ?_⟩
  show (true && (propsOk props && true)) = true
  rw [hp]
  rfl

theorem schemaOk_objectSchemaOfFields {entries : List (FieldMeta × Schema)}
    (h : fieldEntriesOk entries = true) :
    schemaOk (objectSchemaOfFields entries) = true := by
  have hp := objectPropsAcc_ok entries ([], []) rfl h
  unfold objectSchemaOfFields
  rcases hpr : objectPropsAcc ([], []) entries with ⟨props, req⟩
  rw [hpr] at hp
  dsimp only
  split
  · exact schemaOk_setKey rfl (schemaOk_objectView hp)
  · exact schemaOk_objectView hp

theorem schemaOk_arrayOf {s : Schema} (h : schemaOk s = true) :
    schemaOk [("type", JVal.s "array"), ("items", JVal.obj s)] = true := by
  rw [schemaOk, Bool.and_eq_true] at h
  rw [schemaOk, Bool.and_eq_true]
  refine ⟨rfl, ?_⟩
  show (true && ((nodeOk s && schemaEntriesOk s) && true)) = true
  rw [h.1, h.2]
  rfl

mutual

/-- The type-level zero-value schema agrees with running the value path on
the actual zero value, certifying the model of the Go code's
`reflect.New(t).Elem()` probing. -/
theorem schemaForZero_eq_zeroValue : (t : GoType) →
    schemaForZero t = generateSchemaForValue (zeroValue t)
  | .strT => rfl
  | .boolT => rfl
  | .intT => rfl
  | .floatT => rfl
  | .ptr _ => rfl
  | .slice _ => rfl
  | .mapT _ _ => rfl
  | .structT n fts => by
    show objectSchemaOfFields (zeroFieldSchemas fts)
        = objectSchemaOfFields (fieldSchemas (zeroFields fts))
    rw [zeroFieldSchemas_eq_fieldSchemas fts]
  | .timeT => rfl
  | .ifaceT => rfl
  | .otherT => rfl

/-- Companion of `schemaForZero_eq_zeroValue` for field lists. -/
theorem zeroFieldSchemas_eq_fieldSchemas : (fts : List (FieldMeta × GoType)) →
    zeroFieldSchemas fts = fieldSchemas (zeroFields fts)
  | [] => rfl
  | (m, t) :: rest => by
    show (m, schemaForZero t) :: zeroFieldSchemas rest
        = (m, generateSchemaForValue (zeroValue t)) :: fieldSchemas (zeroFields rest)
    rw [schemaForZero_eq_zeroValue t, zeroFieldSchemas_eq_fieldSchemas rest]

end

mutual

/-- Every zero-value schema satisfies the structural invariant. -/
theorem schemaOk_schemaForZero : (t : GoType) → schemaOk (schemaForZero t) = true
  | .strT => rfl
  | .boolT => rfl
  | .intT => rfl
  | .floatT => rfl
  | .ptr _ => rfl
  | .slice t => by
    refine schemaOk_arrayOf ?_
    split
    · exact schemaOk_schemaForZero t
    · exact schemaOk_generateSchemaForType t
  | .mapT _ _ => rfl
  | .structT _ fts => schemaOk_objectSchemaOfFields (fieldEntriesOk_zeroFieldSchemas fts)
  | .timeT => rfl
  | .ifaceT => rfl
  | .otherT => rfl

/-- Raw zero-value field schemas are all wellformed. -/
theorem fieldEntriesOk_zeroFieldSchemas : (fts : List (FieldMeta × GoType)) →
    fieldEntriesOk (zeroFieldSchemas fts) = true
  | [] => rfl
  | (_, t) :: rest =>
    and2true (schemaOk_schemaForZero t) (fieldEntriesOk_zeroFieldSchemas rest)

/-- Every type-derived schema satisfies the structural invariant. -/
theorem schemaOk_generateSchemaForType : (t : GoType) → schemaOk (generateSchemaForType t) = true
  | .ptr .strT | .strT => rfl
  | .ptr .boolT | .boolT => rfl
  | .ptr .intT | .intT => rfl
  | .ptr .floatT | .floatT => rfl
  | .ptr .timeT | .timeT => rfl
  | .ptr (.structT _ fts) | .structT _ fts =>
    schemaOk_objectSchemaOfFields (fieldEntriesOk_zeroFieldSchemas fts)
  | .ptr (.ptr _) => rfl
  | .ptr (.slice _) => rfl
  | .ptr (.mapT _ _) => rfl
  | .ptr .ifaceT => rfl
  | .ptr .otherT => rfl
  | .slice _ => rfl
  | .mapT _ _ => rfl
  | .ifaceT => rfl
  | .otherT => rfl

end

mutual

/-- Every schema produced by `generateSchemaForValue` satisfies the
structural invariant, recursively. -/
theorem schemaOk_generateSchemaForValue : (v : GoValue) →
    schemaOk (generateSchemaForValue v) = true
  | .nilPtr _ => rfl
  | .ptrV (.structV _ fvs) | .structV _ fvs =>
    schemaOk_objectSchemaOfFields (fieldEntriesOk_fieldSchemas fvs)
  | .ptrV .timeV | .timeV => rfl
  | .ptrV (.sliceV t es) | .sliceV t es => schemaOk_generateArraySchema t es
  | .ptrV (.mapV _ _) | .mapV _ _ => rfl
  | .ptrV (.strV _) | .strV _ => rfl
  | .ptrV (.boolV _) | .boolV _ => rfl
  | .ptrV (.intV _) | .intV _ => rfl
  | .ptrV (.floatV _) | .floatV _ => rfl
  | .ptrV (.nilPtr _) => rfl
  | .ptrV (.ptrV _) => rfl
  | .ptrV .ifaceNil => rfl
  | .ptrV (.ifaceV _) => rfl
  | .ptrV .otherV => rfl
  | .ifaceNil => rfl
  | .ifaceV _ => rfl
  | .otherV => rfl

/-- Raw field schemas of a struct value are all wellformed. -/
theorem fieldEntriesOk_fieldSchemas : (fvs : List (FieldMeta × GoValue)) →
    fieldEntriesOk (fieldSchemas fvs) = true
  | [] => rfl
  | (_, fv) :: rest =>
    and2true (schemaOk_generateSchemaForValue fv) (fieldEntriesOk_fieldSchemas rest)

/-- Every array schema satisfies the structural invariant. -/
theorem schemaOk_generateArraySchema : (t : GoType) → (es : List GoValue) →
    schemaOk (generateArraySchema t es) = true
  | t, [] => by
    refine schemaOk_arrayOf ?_
    split
    · exact schemaOk_schemaForZero t
    · exact schemaOk_generateSchemaForType t
  | _, e :: _ => schemaOk_arrayOf (schemaOk_generateSchemaForValue e)

end

theorem nodeOk_parts {s : Schema} (h : nodeOk s = true) :
    (getKey s "type").isSome = true
    ∧ ((getKey s "items").isSome == (getTypeString s == "array")) = true
    ∧ (!(getKey s "properties").isSome || (getTypeString s == "object")) = true := by
  have h1 := true2and h
  have h2 := true2and h1.1
  exact ⟨h2.1, h2.2, h1.2⟩

theorem objectSchemaOfFields_has_props (entries : List (FieldMeta × Schema)) :
    (getKey (objectSchemaOfFields entries) "properties").isSome = true := by
  unfold objectSchemaOfFields
  rcases objectPropsAcc ([], []) entries with ⟨props, req⟩
  dsimp only
  split
  · rw [getKey_setKey, if_neg (by decide)]
    rfl
  · rfl

/-- Whether a value has pointer `reflect.Kind` (nil or not). -/
def isPointerKind : GoValue → Bool
  | .nilPtr _ => true
  | .ptrV _ => true
  | _ => false

/-- Whether some field of the list is named `Response`. -/
def hasResponseField : List (FieldMeta × GoValue) → Bool
  | [] => false
  | (m, _) :: rest => m.name = "Response" || hasResponseField rest

/-- Whether a value matches the envelope shapes that `GenerateJSONSchema`
unwraps: a struct with fields whose first field is named `Data` or which
contains a field named `Response`. -/
def isEnvelopeShaped : GoValue → Bool
  | .structV _ [] => false
  | .structV _ ((m0, f0) :: rest) => m0.name = "Data" || hasResponseField ((m0, f0) :: rest)
  | .ptrV _ => false
  | _ => false

/-- The payload values on which envelope transparency fails: a nil pointer
(the top level returns the generic object schema for it, the recursive path
`null`), a pointer to a pointer (the top level dereferences twice in total,
the recursive path once), and anything that — after the top-level single
dereference — is itself envelope-shaped (the direct inference unwraps it
again, the wrapped inference does not). -/
def badPayload : GoValue → Bool
  | .nilPtr _ => true
  | .ptrV u => isPointerKind u || isEnvelopeShaped u
  | v => isEnvelopeShaped v

theorem findResponseField_eq_none {fvs : List (FieldMeta × GoValue)}
    (h : hasResponseField fvs = false) : findResponseField fvs = none := by
  induction fvs with
  | nil => rfl
  | cons hd rest ih =>
    obtain ⟨m, v⟩ := hd
    rw [hasResponseField] at h
    simp only [Bool.or_eq_false_iff, decide_eq_false_iff_not] at h
    rw [findResponseField, if_neg h.1]
    exact ih h.2

theorem findResponseField_append {pre : List (FieldMeta × GoValue)} {fm : FieldMeta}
    {fv : GoValue} (post : List (FieldMeta × GoValue))
    (hpre : ∀ q ∈ pre, q.1.name ≠ "Response") (hfm : fm.name = "Response") :
    findResponseField (pre ++ (fm, fv) :: post) = some fv := by
  induction pre with
  | nil =>
    rw [List.nil_append, findResponseField, if_pos hfm]
  | cons hd tl ih =>
    obtain ⟨m, v⟩ := hd
    rw [List.cons_append, findResponseField, if_neg (hpre (m, v) (List.mem_cons_self _ _))]
    exact ih fun q hq => hpre q (List.mem_cons_of_mem _ hq)

/-- In the recursive path, a non-nil pointer whose pointee is not itself of
pointer kind gets exactly the pointee's schema. -/
theorem generateSchemaForValue_ptr {u : GoValue} (h : isPointerKind u = false) :
    generateSchemaForValue (.ptrV u) = generateSchemaForValue u := by
  cases u <;> first
    | rfl
    | simp [isPointerKind] at h

/-- On non-envelope-shaped values, the unwrapping half of
`GenerateJSONSchema` is just `generateSchemaForValue`. -/
theorem generateJSONSchemaUnwrap_eq {v : GoValue} (h : isEnvelopeShaped v = false) :
    generateJSONSchemaUnwrap v = generateSchemaForValue v := by
  cases v <;> try rfl
  case structV name fvs =>
    cases fvs with
    | nil => rfl
    | cons hd rest =>
      obtain ⟨m0, f0⟩ := hd
      rw [isEnvelopeShaped] at h
      simp only [Bool.or_eq_false_iff, decide_eq_false_iff_not] at h
      rw [generateJSONSchemaUnwrap, if_neg h.1, findResponseField_eq_none h.2]

/-- The element types for which the empty-collection path still produces a
fully shaped `items` schema: primitives, `time.Time` and structs, possibly
behind one pointer.  Nested collections, maps and interfaces fall to the
`default` branch of `generateSchemaForType` and degrade to the bare object
placeholder. -/
def stripPtr : GoType → GoType
  | .ptr u => u
  | t => t

/-- See `stripPtr`. -/
def goodElem (t : GoType) : Bool :=
  match stripPtr t with
  | .strT | .boolT | .intT | .floatT | .structT _ _ | .timeT => true
  | _ => false

theorem applyRule_min3 (st : String) (sch : Schema) :
    applyRule st sch "min=3" =
      if st = "string" then setKey sch "minLength" (JVal.i 3)
      else if st = "array" then setKey sch "minItems" (JVal.i 3)
      else setKey sch "minimum" (JVal.q 3) := by
  by_cases h1 : st = "string"
  · subst h1
    rfl
  · by_cases h2 : st = "array"
    · subst h2
      rfl
    · rw [if_neg h1, if_neg h2]
      have hc : (decide (st = "string") || decide (st = "array")) = false := by
        rw [decide_eq_false h1, decide_eq_false h2]
        rfl
      calc applyRule st sch "min=3"
          = if (decide (st = "string") || decide (st = "array")) = true then
              (if st = "string" then setKey sch "minLength" (JVal.i 3)
               else setKey sch "minItems" (JVal.i 3))
            else setKey sch "minimum" (JVal.q 3) := rfl
        _ = setKey sch "minimum" (JVal.q 3) := by rw [hc]; rfl

theorem applyRule_max3 (st : String) (sch : Schema) :
    applyRule st sch "max=3" =
      if st = "string" then setKey sch "maxLength" (JVal.i 3)
      else if st = "array" then setKey sch "maxItems" (JVal.i 3)
      else setKey sch "maximum" (JVal.q 3) := by
  by_cases h1 : st = "string"
  · subst h1
    rfl
  · by_cases h2 : st = "array"
    · subst h2
      rfl
    · rw [if_neg h1, if_neg h2]
      have hc : (decide (st = "string") || decide (st = "array")) = false := by
        rw [decide_eq_false h1, decide_eq_false h2]
        rfl
      calc applyRule st sch "max=3"
          = if (decide (st = "string") || decide (st = "array")) = true then
              (if st = "string" then setKey sch "maxLength" (JVal.i 3)
               else setKey sch "maxItems" (JVal.i 3))
            else setKey sch "maximum" (JVal.q 3) := rfl
        _ = setKey sch "maximum" (JVal.q 3) := by rw [hc]; rfl

/-- C2: a struct with `Name string` (json tag `name`, no omitempty) and
`Age int` (json tag `age`, `validate:"gte=0,lte=150"`) infers to an object
schema with `name ↦ {type: string}`, `age ↦ {type: integer, minimum: 0,
maximum: 150}` and `required = [name, age]`. -/
theorem claim_C2_concrete_scenario :
    GenerateJSONSchema (some (GoValue.structV "Person"
      [(⟨"Name", true, "name", "", "", "", "", ""⟩, GoValue.strV ""),
       (⟨"Age", true, "age", "", "", "", "gte=0,lte=150", ""⟩, GoValue.intV 0)])) =
    [("type", JVal.s "object"),
     ("properties", JVal.obj
       [("name", JVal.obj [("type", JVal.s "string")]),
        ("age", JVal.obj
          [("type", JVal.s "integer"), ("minimum", JVal.q 0), ("maximum", JVal.q 150)])]),
     ("required", JVal.arr [JVal.s "name", JVal.s "age"])] := rfl

/-- C3: applying rule `min=3` is polymorphic on the already-inferred schema
kind — a string-kind schema gets `minLength = 3`, an array-kind schema gets
`minItems = 3`, and any other kind gets `minimum = 3`; the analogous mapping
holds for `max=3` (maxLength / maxItems / maximum). -/
theorem claim_C3_polymorphic_bounds :
    (∀ sch : Schema, getTypeString sch = "string" →
        applyValidationRules sch "min=3" = setKey sch "minLength" (JVal.i 3)
      ∧ applyValidationRules sch "max=3" = setKey sch "maxLength" (JVal.i 3))
    ∧ (∀ sch : Schema, getTypeString sch = "array" →
        applyValidationRules sch "min=3" = setKey sch "minItems" (JVal.i 3)
      ∧ applyValidationRules sch "max=3" = setKey sch "maxItems" (JVal.i 3))
    ∧ (∀ sch : Schema, getTypeString sch ≠ "string" → getTypeString sch ≠ "array" →
        applyValidationRules sch "min=3" = setKey sch "minimum" (JVal.q 3)
      ∧ applyValidationRules sch "max=3" = setKey sch "maximum" (JVal.q 3)) := by
  refine ⟨fun sch h => ⟨?_, ?_⟩, fun sch h => ⟨?_, ?_⟩, fun sch h1 h2 => ⟨?_, ?_⟩⟩
  · show applyRule (getTypeString sch) sch "min=3" = _
    rw [applyRule_min3, h]
    rfl
  · show applyRule (getTypeString sch) sch "max=3" = _
    rw [applyRule_max3, h]
    rfl
  · show applyRule (getTypeString sch) sch "min=3" = _
    rw [applyRule_min3, h]
    rfl
  · show applyRule (getTypeString sch) sch "max=3" = _
    rw [applyRule_max3, h]
    rfl
  · show applyRule (getTypeString sch) sch "min=3" = _
    rw [applyRule_min3, if_neg h1, if_neg h2]
  · show applyRule (getTypeString sch) sch "max=3" = _
    rw [applyRule_max3, if_neg h1, if_neg h2]

theorem claim_C3_witness :
    getTypeString [("type", JVal.s "string")] = "string"
    ∧ applyValidationRules [("type", JVal.s "string")] "min=3"
        = setKey [("type", JVal.s "string")] "minLength" (JVal.i 3)
    ∧ applyValidationRules [("type", JVal.s "array")] "min=3"
        = setKey [("type", JVal.s "array")] "minItems" (JVal.i 3)
    ∧ applyValidationRules [("type", JVal.s "number")] "min=3"
        = setKey [("type", JVal.s "number")] "minimum" (JVal.q 3)
    ∧ applyValidationRules [("type", JVal.s "string")] "max=3"
        = setKey [("type", JVal.s "string")] "maxLength" (JVal.i 3) :=
  ⟨rfl,
   (claim_C3_polymorphic_bounds.1 [("type", JVal.s "string")] rfl).1,
   (claim_C3_polymorphic_bounds.2.1 [("type", JVal.s "array")] rfl).1,
   (claim_C3_polymorphic_bounds.2.2 [("type", JVal.s "number")]
     (by decide) (by decide)).1,
   (claim_C3_polymorphic_bounds.1 [("type", JVal.s "string")] rfl).2⟩

/-- C4: the code does NOT emit `^a\.b` for `startswith=a.b`.  Because
`escapeRegex` replaces the backslash LAST in its special-character list, the
backslash introduced when escaping the dot is itself re-escaped, so the
emitted pattern is `^a\\.b` (backslash, backslash, dot) — regex-wise an
escaped backslash followed by an unescaped any-character dot — not `^a\.b`
(a single backslash escaping the dot) as the claim and the function's own
doc comment ("escapes special regex characters") intend. -/
theorem claim_C4_escape_double :
    applyValidationRules [("type", JVal.s "string")] "startswith=a.b"
      = [("type", JVal.s "string"), ("pattern", JVal.s "^a\\\\.b")]
    ∧ escapeRegex "a.b" = "a\\\\.b"
    ∧ "^a\\\\.b" ≠ "^a\\.b" :=
  ⟨rfl, rfl, by decide⟩

/-- C5 (amended): in the recursive inference (`generateSchemaForValue`,
used for fields, elements and the unwrapped payload) a nil pointer yields
`{type: null}` and a non-nil pointer whose pointee is not itself of pointer
kind yields exactly the pointee's schema; but at the TOP level,
`GenerateJSONSchema` returns the generic `{type: object}` for a nil
pointer, not `{type: null}` as the claim states. -/
theorem claim_C5_pointer_mapping :
    (∀ t : GoType, generateSchemaForValue (GoValue.nilPtr t) = [("type", JVal.s "null")])
    ∧ (∀ u : GoValue, isPointerKind u = false →
        generateSchemaForValue (GoValue.ptrV u) = generateSchemaForValue u)
    ∧ (∀ t : GoType, GenerateJSONSchema (some (GoValue.nilPtr t)) = [("type", JVal.s "object")]) :=
  ⟨fun _ => rfl, fun _ h => generateSchemaForValue_ptr h, fun _ => rfl⟩

theorem claim_C5_witness :
    isPointerKind (GoValue.strV "x") = false
    ∧ generateSchemaForValue (GoValue.ptrV (GoValue.strV "x"))
        = generateSchemaForValue (GoValue.strV "x")
    ∧ generateSchemaForValue (GoValue.nilPtr GoType.intT) = [("type", JVal.s "null")] :=
  ⟨rfl, claim_C5_pointer_mapping.2.1 (GoValue.strV "x") rfl,
   claim_C5_pointer_mapping.1 GoType.intT⟩

/-- C5 counterexample: a nil pointer passed at the top level of
`GenerateJSONSchema` yields `{type: object}`, not the `{type: null}` the
claim asserts for every nil pointer "including when the nil pointer is the
top-level value". -/
theorem claim_C5_counterexample :
    GenerateJSONSchema (some (GoValue.nilPtr GoType.intT)) = [("type", JVal.s "object")]
    ∧ GenerateJSONSchema (some (GoValue.nilPtr GoType.intT)) ≠ [("type", JVal.s "null")] :=
  ⟨rfl, fun hEq => absurd (congrArg getTypeString hEq) (by decide)⟩

/-- C7 (amended): for an empty collection whose element type — after
stripping one pointer — is a primitive, `time.Time` or a struct, the
`items` schema is the full schema of that element type's zero value, never
the bare `{type: object}` placeholder.  (For nested collections, maps and
interfaces, `generateSchemaForType` degrades to the bare placeholder; see
the counterexample.) -/
theorem claim_C7_empty_collection (t : GoType) (h : goodElem t = true) :
    generateSchemaForValue (GoValue.sliceV t []) =
      [("type", JVal.s "array"),
       ("items", JVal.obj (generateSchemaForValue (zeroValue (stripPtr t))))]
    ∧ generateSchemaForValue (zeroValue (stripPtr t)) ≠ [("type", JVal.s "object")] := by
  have hstruct : ∀ (n : String) (fts : List (FieldMeta × GoType)),
      generateSchemaForValue (zeroValue (GoType.structT n fts)) ≠ [("type", JVal.s "object")] := by
    intro n fts hEq
    have hprops : (getKey (generateSchemaForValue (zeroValue (GoType.structT n fts)))
        "properties").isSome = true :=
      objectSchemaOfFields_has_props (fieldSchemas (zeroFields fts))
    rw [hEq] at hprops
    exact Bool.noConfusion hprops
  cases t with
  | strT => exact ⟨rfl, fun hEq => absurd (congrArg getTypeString hEq) (by decide)⟩
  | boolT => exact ⟨rfl, fun hEq => absurd (congrArg getTypeString hEq) (by decide)⟩
  | intT => exact ⟨rfl, fun hEq => absurd (congrArg getTypeString hEq) (by decide)⟩
  | floatT => exact ⟨rfl, fun hEq => absurd (congrArg getTypeString hEq) (by decide)⟩
  | timeT => exact ⟨rfl, fun hEq => absurd (congrArg getTypeString hEq) (by decide)⟩
  | structT n fts =>
    refine ⟨?_, hstruct n fts⟩
    show [("type", JVal.s "array"), ("items", JVal.obj (schemaForZero (GoType.structT n fts)))] = _
    rw [schemaForZero_eq_zeroValue]
    rfl
  | ptr u =>
    cases u with
    | strT => exact ⟨rfl, fun hEq => absurd (congrArg getTypeString hEq) (by decide)⟩
    | boolT => exact ⟨rfl, fun hEq => absurd (congrArg getTypeString hEq) (by decide)⟩
    | intT => exact ⟨rfl, fun hEq => absurd (congrArg getTypeString hEq) (by decide)⟩
    | floatT => exact ⟨rfl, fun hEq => absurd (congrArg getTypeString hEq) (by decide)⟩
    | timeT => exact ⟨rfl, fun hEq => absurd (congrArg getTypeString hEq) (by decide)⟩
    | structT n fts =>
      refine ⟨?_, hstruct n fts⟩
      show [("type", JVal.s "array"),
            ("items", JVal.obj (objectSchemaOfFields (zeroFieldSchemas fts)))] = _
      rw [zeroFieldSchemas_eq_fieldSchemas]
      rfl
    | ptr v => exact Bool.noConfusion h
    | slice e => exact Bool.noConfusion h
    | mapT a b => exact Bool.noConfusion h
    | ifaceT => exact Bool.noConfusion h
    | otherT => exact Bool.noConfusion h
  | slice e => exact Bool.noConfusion h
  | mapT a b => exact Bool.noConfusion h
  | ifaceT => exact Bool.noConfusion h
  | otherT => exact Bool.noConfusion h

theorem claim_C7_witness :
    goodElem GoType.strT = true
    ∧ generateSchemaForValue (GoValue.sliceV GoType.strT []) =
        [("type", JVal.s "array"),
         ("items", JVal.obj (generateSchemaForValue (zeroValue (stripPtr GoType.strT))))]
    ∧ generateSchemaForValue (zeroValue (stripPtr GoType.strT)) ≠ [("type", JVal.s "object")] :=
  ⟨rfl, (claim_C7_empty_collection GoType.strT rfl).1,
   (claim_C7_empty_collection GoType.strT rfl).2⟩

/-- C7 counterexample: an empty `[][]int` — an empty collection whose
element type `[]int` is perfectly known — gets the bare `{type: object}`
placeholder as its `items` schema, not the fully-shaped array-of-integer
schema that inferring a `[]int` value produces. -/
theorem claim_C7_counterexample :
    generateSchemaForValue (GoValue.sliceV (GoType.slice GoType.intT) []) =
      [("type", JVal.s "array"), ("items", JVal.obj [("type", JVal.s "object")])]
    ∧ generateSchemaForValue (GoValue.sliceV GoType.intT []) =
      [("type", JVal.s "array"), ("items", JVal.obj [("type", JVal.s "integer")])]
    ∧ ([("type", JVal.s "object")] : Schema) ≠ [("type", JVal.s "integer")] :=
  ⟨rfl, rfl, fun hEq => absurd (congrArg getTypeString hEq) (by decide)⟩

/-- C8: `Parser.Validate` fails exactly when the collected document is
missing a title, missing a version, or has no server configured. -/
theorem claim_C8_validate_iff (p : Parser) :
    (∃ e, Parser.Validate p = Except.error e) ↔
      (p.asyncAPI.info.title = "" ∨ p.asyncAPI.info.version = ""
        ∨ p.asyncAPI.servers = []) := by
  unfold Parser.Validate
  split_ifs with h1 h2 h3
  · exact ⟨fun _ => Or.inl h1, fun _ => ⟨_, rfl⟩⟩
  · exact ⟨fun _ => Or.inr (Or.inl h2), fun _ => ⟨_, rfl⟩⟩
  · constructor
    · intro _
      exact Or.inr (Or.inr (List.length_eq_zero.mp h3))
    · intro _
      exact ⟨_, rfl⟩
  · constructor
    · rintro ⟨e, he⟩
      cases he
    · rintro (h | h | h)
      · exact absurd h h1
      · exact absurd h h2
      · exact absurd (by rw [h]; rfl) h3

theorem claim_C8_witness :
    (∃ e, Parser.Validate ⟨⟨⟨"", "1.0"⟩, ["srv"]⟩⟩ = Except.error e)
    ∧ ¬∃ e, Parser.Validate ⟨⟨⟨"t", "1.0"⟩, ["srv"]⟩⟩ = Except.error e :=
  ⟨(claim_C8_validate_iff _).mpr (Or.inl rfl),
   fun hex => by
     rcases (claim_C8_validate_iff _).mp hex with h | h | h <;> exact absurd h (by decide)⟩

/-- C1 (amended): wrapping a payload in the `Msg` data envelope and
inferring yields the same schema as inferring the payload directly, for
every payload that is not a nil pointer, not a pointer to a pointer-kind
value, and not (after the top-level single dereference) itself
envelope-shaped (`badPayload`); moreover the unwrapping happens only at the
top level — at any deeper nesting position (`generateSchemaForValue`) a
`Msg` value keeps its `data` envelope field visible in `properties`. -/
theorem claim_C1_envelope_transparency :
    (∀ p : Option GoValue,
       (∀ v, p = some v → badPayload v = false) →
       GenerateJSONSchema (some (mkMsg p)) = GenerateJSONSchema p)
    ∧ (∀ p : Option GoValue,
        generateSchemaForValue (mkMsg p) =
          [("type", JVal.s "object"),
           ("properties", JVal.obj [("data", JVal.obj [("type", JVal.s "object")])]),
           ("required", JVal.arr [JVal.s "data"])]) := by
  constructor
  · intro p hp
    match p with
    | none => rfl
    | some v =>
      have hb := hp v rfl
      cases v <;> try rfl
      case nilPtr t => simp [badPayload] at hb
      case ptrV u =>
        have hb2 := Bool.or_eq_false_iff.mp hb
        show generateSchemaForValue (.ptrV u) = generateJSONSchemaUnwrap u
        rw [generateSchemaForValue_ptr hb2.1, generateJSONSchemaUnwrap_eq hb2.2]
      case structV n fvs =>
        show generateSchemaForValue (.structV n fvs)
            = generateJSONSchemaUnwrap (.structV n fvs)
        rw [generateJSONSchemaUnwrap_eq hb]
  · intro p
    cases p <;> rfl

theorem claim_C1_witness :
    (∀ v, (some (GoValue.intV 7) : Option GoValue) = some v → badPayload v = false)
    ∧ GenerateJSONSchema (some (mkMsg (some (GoValue.intV 7))))
        = GenerateJSONSchema (some (GoValue.intV 7)) :=
  ⟨fun v hv => by cases hv; rfl,
   claim_C1_envelope_transparency.1 (some (GoValue.intV 7)) (fun v hv => by cases hv; rfl)⟩

/-- C1 counterexample: for the payload `(*int)(nil)` the envelope-wrapped
inference yields `{type: null}` while the direct inference yields
`{type: object}`, so the claim's unrestricted "for every payload value P"
is false. -/
theorem claim_C1_counterexample :
    GenerateJSONSchema (some (mkMsg (some (GoValue.nilPtr GoType.intT))))
      ≠ GenerateJSONSchema (some (GoValue.nilPtr GoType.intT)) :=
  fun hEq => absurd (congrArg getTypeString hEq) (by decide)

/-- C6 (amended): every schema the inference produces satisfies, down to
every nested `properties` value, `items` and `additionalProperties` entry
(`schemaOk`): a `type` entry is present, an `items` entry is present
exactly on array-kind schemas, array-kind schemas carry no `properties`,
and a `properties` mapping appears only on object-kind schemas; schemas
built from struct values always carry a `properties` mapping — but the
claim's converse direction "kind object implies properties present" is
false for the map/interface/fallback schemas (see the counterexample). -/
theorem claim_C6_structural_invariant :
    (∀ v : GoValue, schemaOk (generateSchemaForValue v) = true)
    ∧ (∀ v : GoValue,
        (getTypeString (generateSchemaForValue v) = "array" →
          (getKey (generateSchemaForValue v) "items").isSome = true
          ∧ getKey (generateSchemaForValue v) "properties" = none)
        ∧ ((getKey (generateSchemaForValue v) "properties").isSome = true →
          getTypeString (generateSchemaForValue v) = "object"))
    ∧ (∀ (name : String) (fvs : List (FieldMeta × GoValue)),
        (getKey (generateSchemaForValue (GoValue.structV name fvs)) "properties").isSome
          = true) := by
  refine ⟨schemaOk_generateSchemaForValue, fun v => ?_,
    fun name fvs => objectSchemaOfFields_has_props (fieldSchemas fvs)⟩
  have hn := nodeOk_parts (true2and (schemaOk_generateSchemaForValue v)).1
  refine ⟨fun hArr => ?_, fun hProps => ?_⟩
  · have h2 := hn.2.1
    have h3 := hn.2.2
    rw [hArr] at h2 h3
    refine ⟨by simpa using h2, ?_⟩
    cases hgk : getKey (generateSchemaForValue v) "properties" with
    | none => rfl
    | some x =>
      rw [hgk] at h3
      simp at h3
  · have h3 := hn.2.2
    rw [hProps] at h3
    simpa using h3

theorem claim_C6_witness :
    getTypeString (generateSchemaForValue (GoValue.sliceV GoType.intT [])) = "array"
    ∧ (getKey (generateSchemaForValue (GoValue.sliceV GoType.intT [])) "items").isSome = true
    ∧ getKey (generateSchemaForValue (GoValue.sliceV GoType.intT [])) "properties" = none :=
  ⟨rfl,
   ((claim_C6_structural_invariant.2.1 (GoValue.sliceV GoType.intT [])).1 rfl).1,
   ((claim_C6_structural_invariant.2.1 (GoValue.sliceV GoType.intT [])).1 rfl).2⟩

/-- C6 counterexample: the schema inferred for a map value is object-kind
but carries no `properties` entry at all, refuting "`kind == object`
implies `properties` present". -/
theorem claim_C6_counterexample :
    getTypeString (GenerateJSONSchema (some (GoValue.mapV GoType.strT GoType.strT))) = "object"
    ∧ getKey (GenerateJSONSchema (some (GoValue.mapV GoType.strT GoType.strT))) "properties"
        = none :=
  ⟨rfl, rfl⟩

/-- C9: `GenerateJSONSchema` is total on its public interface — the nil
`interface{}` yields the generic `{type: object}`, and every input yields a
schema (with a `type` entry); in the model it is a total function into
`Schema`, with no error value. -/
theorem claim_C9_totality :
    GenerateJSONSchema none = [("type", JVal.s "object")]
    ∧ ∀ v : GoValue, (getKey (GenerateJSONSchema (some v)) "type").isSome = true := by
  refine ⟨rfl, fun v => ?_⟩
  have base : ∀ w : GoValue, (getKey (generateSchemaForValue w) "type").isSome = true :=
    fun w => (nodeOk_parts (true2and (schemaOk_generateSchemaForValue w)).1).1
  have hunwrap : ∀ w : GoValue,
      (getKey (generateJSONSchemaUnwrap w) "type").isSome = true := by
    intro w
    cases w <;> try exact base _
    case structV name fvs =>
      cases fvs with
      | nil => exact base _
      | cons hd rest =>
        obtain ⟨m0, f0⟩ := hd
        rw [generateJSONSchemaUnwrap]
        split
        · exact base _
        · split
          · exact base _
          · exact base _
  cases v with
  | nilPtr t => rfl
  | ptrV u => exact hunwrap u
  | strV s => exact hunwrap (.strV s)
  | boolV b => exact hunwrap (.boolV b)
  | intV n => exact hunwrap (.intV n)
  | floatV x => exact hunwrap (.floatV x)
  | sliceV t es => exact hunwrap (.sliceV t es)
  | mapV k val => exact hunwrap (.mapV k val)
  | structV n fvs => exact hunwrap (.structV n fvs)
  | timeV => exact hunwrap .timeV
  | ifaceNil => exact hunwrap .ifaceNil
  | ifaceV u => exact hunwrap (.ifaceV u)
  | otherV => exact hunwrap .otherV

/-- C10: envelope detection is decided by field names alone — any top-level
struct value whose first field is named `Data` (whatever the struct's type
name or tags) is unwrapped to that field's schema, and otherwise any
top-level struct containing a field named `Response` is unwrapped to the
first such field's schema. -/
theorem claim_C10_field_name_dispatch :
    (∀ (name : String) (m0 : FieldMeta) (f0 : GoValue) (rest : List (FieldMeta × GoValue)),
       m0.name = "Data" →
       GenerateJSONSchema (some (GoValue.structV name ((m0, f0) :: rest)))
         = generateSchemaForValue (unwrapInterfaceValue f0))
    ∧ (∀ (name : String) (m0 : FieldMeta) (f0 : GoValue)
         (rest pre post : List (FieldMeta × GoValue)) (fm : FieldMeta) (fv : GoValue),
       (m0, f0) :: rest = pre ++ (fm, fv) :: post →
       m0.name ≠ "Data" →
       (∀ q ∈ pre, q.1.name ≠ "Response") →
       fm.name = "Response" →
       GenerateJSONSchema (some (GoValue.structV name ((m0, f0) :: rest)))
         = generateSchemaForValue (unwrapInterfaceValue fv)) := by
  constructor
  · intro name m0 f0 rest hD
    show generateJSONSchemaUnwrap (GoValue.structV name ((m0, f0) :: rest)) = _
    rw [generateJSONSchemaUnwrap, if_pos hD]
  · intro name m0 f0 rest pre post fm fv hEq hD hpre hfm
    show generateJSONSchemaUnwrap (GoValue.structV name ((m0, f0) :: rest)) = _
    rw [generateJSONSchemaUnwrap, if_neg hD, hEq,
      findResponseField_append post hpre hfm]

theorem claim_C10_witness :
    GenerateJSONSchema (some (GoValue.structV "MyEvent"
        [(⟨"Data", true, "payload", "", "", "", "", ""⟩, GoValue.strV "x")]))
      = generateSchemaForValue (unwrapInterfaceValue (GoValue.strV "x"))
    ∧ GenerateJSONSchema (some (GoValue.structV "MyReply"
        [(⟨"Code", true, "code", "", "", "", "", ""⟩, GoValue.intV 1),
         (⟨"Response", true, "resp", "", "", "", "", ""⟩, GoValue.boolV true)]))
      = generateSchemaForValue (unwrapInterfaceValue (GoValue.boolV true)) :=
  ⟨claim_C10_field_name_dispatch.1 "MyEvent" _ _ _ rfl,
   claim_C10_field_name_dispatch.2 "MyReply" _ _ _
     [(⟨"Code", true, "code", "", "", "", "", ""⟩, GoValue.intV 1)] [] _ _
     rfl (by decide) (by decide) rfl⟩
